import Mathlib

/-!
Shallow embedding of the `usb_rt` Linux driver core (`src/usb-rt.c`, which
holds two variants of the same driver: an earlier one, below "v1", and a
later one, below "v2").  Device state is modelled as a record; each file
operation becomes a pure function threading the state, with the
nondeterministic inputs of the real system (semaphore acquisition,
`usb_submit_urb` results, `copy_to_user`/`copy_from_user` faults, wait
outcomes, completion statuses) passed in explicitly as oracle arguments.
`size_t` subtraction appears only as `filled - copied`, which the proved
invariant `copied ≤ filled` keeps below the wrap point, so it is modelled
as truncated `Nat` subtraction.
-/

namespace UsbRt

/-- errno magnitudes; the driver returns their negations. -/
def ENOENT : Int := 2
def EIO : Int := 5
def EAGAIN : Int := 11
def ENOMEM : Int := 12
def EFAULT : Int := 14
def ENODEV : Int := 19
def EPIPE : Int := 32
def ECONNRESET : Int := 104
def ESHUTDOWN : Int := 108
def ETIMEDOUT : Int := 110
def ERESTARTSYS : Int := 512

/-- poll(2) readiness bits, as in `<uapi/asm-generic/poll.h>`. -/
def POLLIN : Nat := 1
def POLLPRI : Nat := 2
def POLLOUT : Nat := 4
def POLLERR : Nat := 8
def POLLRDNORM : Nat := 64
def POLLWRNORM : Nat := 256

/-- MAX_TRANSFER = PAGE_SIZE - 512 with the usual 4096-byte page. -/
def MAX_TRANSFER : Nat := 4096 - 512

/-- WRITES_IN_FLIGHT in the v1 file. -/
def WRITES_IN_FLIGHT_v1 : Nat := 8

/-- WRITES_IN_FLIGHT in the v2 file. -/
def WRITES_IN_FLIGHT_v2 : Nat := 1

/-- The fields of `struct usb_rt` the file operations read and write.
`connected` stands for `dev->interface != NULL` (v1) respectively
`!dev->disconnected` (v2); `submitted_writes` is the number of write URBs
currently held by the `submitted` anchor; `limit_sem` is the current
counter of the admission semaphore. -/
structure UsbRtDev where
  bulk_in_size : Nat
  bulk_out_size : Nat
  bulk_in_filled : Nat
  bulk_in_copied : Nat
  errors : Int
  ongoing_read : Bool
  limit_sem : Nat
  connected : Bool
  submitted_writes : Nat
deriving DecidableEq, Repr

/-- `usb_rt_read_bulk_callback`: on nonzero status record it in the error
slot (the benign unlink codes only suppress the log line, not the
recording); on success record the actual length; always clear
`ongoing_read` and wake waiters. -/
def usb_rt_read_bulk_callback (dev : UsbRtDev) (status : Int)
    (actual_length : Nat) : UsbRtDev :=
  let dev :=
    if status ≠ 0 then { dev with errors := status }
    else { dev with bulk_in_filled := actual_length }
  { dev with ongoing_read := false }

/-- `usb_rt_write_bulk_callback`: on nonzero status record it in the error
slot, free the transfer buffer, and unconditionally `up` the admission
semaphore.  Completion also removes the URB from the `submitted` anchor,
modelled here by decrementing `submitted_writes`. -/
def usb_rt_write_bulk_callback (dev : UsbRtDev) (status : Int) : UsbRtDev :=
  let dev := if status ≠ 0 then { dev with errors := status } else dev
  { dev with limit_sem := dev.limit_sem + 1,
             submitted_writes := dev.submitted_writes - 1 }

/-- `usb_rt_do_read_io`: fill the bulk-in URB for `min bulk_in_size count`
bytes, set `ongoing_read`, zero `filled`/`copied`, then submit; a negative
submission result other than -ENOMEM is translated to - EIO and
`ongoing_read` is cleared again.  `submit_rv` is the `usb_submit_urb`
return value (0 on success). -/
def usb_rt_do_read_io (dev : UsbRtDev) (count : Nat) (submit_rv : Int) :
    Int × UsbRtDev :=
  let dev := { dev with ongoing_read := true,
                        bulk_in_filled := 0, bulk_in_copied := 0 }
  if submit_rv < 0 then
    ((if submit_rv = -ENOMEM then submit_rv else - EIO),
     { dev with ongoing_read := false })
  else
    (submit_rv, dev)

/-- Outcome of one pass through `wait_event_interruptible`
(`_timeout` in v2) inside `usb_rt_read`: external interruption, timeout
expiry (only the bounded v2 wait can produce it), or completion of the
outstanding receive with the given URB status and actual length. -/
inductive WaitRes where
  | interrupted
  | timedout
  | completed (status : Int) (len : Nat)
deriving DecidableEq, Repr

/-- Oracle inputs consumed by one iteration of the `retry` loop of
`usb_rt_read`. -/
structure ReadIter where
  wait : WaitRes
  submit_rv : Int
  copy_fault : Bool
deriving DecidableEq, Repr

/-- The head of the `retry` loop: if a receive is ongoing, a nonblocking
caller fails -EAGAIN; a blocking caller waits, failing -ERESTARTSYS on
interruption, -ETIMEDOUT on expiry of the bounded (v2) wait, and otherwise
seeing the completion callback run.  `Sum.inl` is an early return,
`Sum.inr` the state the body continues with; `none` marks an outcome the
variant cannot produce (timeout expiry of the unbounded v1 wait). -/
def read_wait_phase (bounded nonblock : Bool) (dev : UsbRtDev) (w : WaitRes) :
    Option (Sum (Int × UsbRtDev) UsbRtDev) :=
  if dev.ongoing_read then
    if nonblock then some (Sum.inl (-EAGAIN, dev))
    else
      match w with
      | WaitRes.interrupted => some (Sum.inl (-ERESTARTSYS, dev))
      | WaitRes.timedout =>
          if bounded then some (Sum.inl (-ETIMEDOUT, dev)) else none
      | WaitRes.completed status len =>
          some (Sum.inr (usb_rt_read_bulk_callback dev status len))
  else some (Sum.inr dev)

/-- The body of the `retry` loop after the wait: surface-and-clear the
error slot; if data is buffered copy `min (filled - copied) count` bytes
(advancing `copied` whether or not the user copy faults); otherwise submit
a new receive and, on success, retry (`Sum.inr`). -/
def usb_rt_read_step (count : Nat) (dev : UsbRtDev) (it : ReadIter) :
    Sum (Int × UsbRtDev) UsbRtDev :=
  if dev.errors < 0 then
    Sum.inl ((if dev.errors = -EPIPE then -EPIPE else - EIO),
             { dev with errors := 0 })
  else if dev.bulk_in_filled ≠ 0 then
    let available := dev.bulk_in_filled - dev.bulk_in_copied
    let chunk := min available count
    if available = 0 then
      let r := usb_rt_do_read_io dev count it.submit_rv
      if r.1 < 0 then Sum.inl r else Sum.inr r.2
    else
      Sum.inl ((if it.copy_fault then -EFAULT else (chunk : Int)),
               { dev with bulk_in_copied := dev.bulk_in_copied + chunk })
  else
    let r := usb_rt_do_read_io dev count it.submit_rv
    if r.1 < 0 then Sum.inl r else Sum.inr r.2

/-- The `retry` loop of `usb_rt_read`; each iteration consumes one
`ReadIter` of oracle inputs, and `none` means the supplied oracle list was
too short to finish the run (or contained an outcome the variant cannot
produce). -/
def usb_rt_read_loop (bounded nonblock : Bool) (count : Nat) :
    UsbRtDev → List ReadIter → Option (Int × UsbRtDev)
  | _, [] => none
  | dev, it :: rest =>
    match read_wait_phase bounded nonblock dev it.wait with
    | none => none
    | some (Sum.inl r) => some r
    | some (Sum.inr dev1) =>
      match usb_rt_read_step count dev1 it with
      | Sum.inl r => some r
      | Sum.inr dev2 => usb_rt_read_loop bounded nonblock count dev2 rest

/-- `usb_rt_read`: EOF for `count = 0` (the bulk-in URB always exists
after a successful probe), -ENODEV after disconnect, otherwise the retry
loop.  `bounded = false` is the v1 unbounded wait, `bounded = true` the
v2 10 ms-bounded wait; the interruptible `io_mutex` acquisition is taken
to succeed. -/
def usb_rt_read (bounded : Bool) (dev : UsbRtDev) (count : Nat)
    (nonblock : Bool) (iters : List ReadIter) : Option (Int × UsbRtDev) :=
  if count = 0 then some (0, dev)
  else if dev.connected = false then some (-ENODEV, dev)
  else usb_rt_read_loop bounded nonblock count dev iters

/-- Oracle inputs of one `usb_rt_write` call: whether a blocking
`down_interruptible` is interrupted, whether the v1 URB/buffer allocations
fail, whether `copy_from_user` faults, and the `usb_submit_urb` result. -/
structure WriteOracle where
  acq_interrupted : Bool
  alloc_urb_fail : Bool
  alloc_buf_fail : Bool
  copy_fault : Bool
  submit_rv : Int
deriving DecidableEq, Repr

/-- Result of `usb_rt_write`: the returned value, the resulting state, and
whether the URB was handed to the USB core (ownership of buffer and
admission slot transferred to the completion path). -/
structure WriteResult where
  retval : Int
  dev : UsbRtDev
  urb_submitted : Bool
deriving DecidableEq, Repr

/-- `usb_rt_write` after the admission slot was acquired: surface-and-clear
the error slot, allocate (v1), copy from the user, check for teardown
under `io_mutex`, submit; every failure path does `up(&dev->limit_sem)`
before returning, and success returns the truncated length.  In v2 the
preallocated URB/buffer are used, so its runs have the allocation-failure
oracles false. -/
def usb_rt_write_after_acq (writeMax : Nat) (dev : UsbRtDev) (count : Nat)
    (o : WriteOracle) : WriteResult :=
  let writesize := min count writeMax
  if dev.errors < 0 then
    ⟨(if dev.errors = -EPIPE then -EPIPE else - EIO),
     { dev with errors := 0, limit_sem := dev.limit_sem + 1 }, false⟩
  else if o.alloc_urb_fail then
    ⟨-ENOMEM, { dev with limit_sem := dev.limit_sem + 1 }, false⟩
  else if o.alloc_buf_fail then
    ⟨-ENOMEM, { dev with limit_sem := dev.limit_sem + 1 }, false⟩
  else if o.copy_fault then
    ⟨-EFAULT, { dev with limit_sem := dev.limit_sem + 1 }, false⟩
  else if dev.connected = false then
    ⟨-ENODEV, { dev with limit_sem := dev.limit_sem + 1 }, false⟩
  else if o.submit_rv ≠ 0 then
    ⟨o.submit_rv, { dev with limit_sem := dev.limit_sem + 1 }, false⟩
  else
    ⟨(writesize : Int),
     { dev with submitted_writes := dev.submitted_writes + 1 }, true⟩

/-- `usb_rt_write`, parameterised by the truncation bound
(`MAX_TRANSFER` in v1, `dev->bulk_out_size` in v2): 0 for an empty write,
then admission — blocking mode acquires via `down_interruptible`
(failing -ERESTARTSYS when interrupted), nonblocking mode via
`down_trylock` (failing -EAGAIN when no slot is free). -/
def usb_rt_write (writeMax : Nat) (dev : UsbRtDev) (count : Nat)
    (nonblock : Bool) (o : WriteOracle) : WriteResult :=
  if count = 0 then ⟨0, dev, false⟩
  else if nonblock = false then
    if o.acq_interrupted then ⟨-ERESTARTSYS, dev, false⟩
    else usb_rt_write_after_acq writeMax
      { dev with limit_sem := dev.limit_sem - 1 } count o
  else
    if dev.limit_sem = 0 then ⟨-EAGAIN, dev, false⟩
    else usb_rt_write_after_acq writeMax
      { dev with limit_sem := dev.limit_sem - 1 } count o

/-- v1 `usb_rt_write`, truncating to MAX_TRANSFER. -/
def usb_rt_write_v1 (dev : UsbRtDev) (count : Nat) (nonblock : Bool)
    (o : WriteOracle) : WriteResult :=
  usb_rt_write MAX_TRANSFER dev count nonblock o

/-- v2 `usb_rt_write`, truncating to `dev->bulk_out_size`. -/
def usb_rt_write_v2 (dev : UsbRtDev) (count : Nat) (nonblock : Bool)
    (o : WriteOracle) : WriteResult :=
  usb_rt_write dev.bulk_out_size dev count nonblock o

/-- Completion of `n` outstanding write URBs during draw-down, with URB
statuses given by the oracle `st` (0 for a natural success, an unlink code
such as -ENOENT for a killed URB). -/
def complete_writes (st : Nat → Int) : Nat → UsbRtDev → UsbRtDev
  | 0, dev => dev
  | n + 1, dev => complete_writes st n (usb_rt_write_bulk_callback dev (st n))

/-- `usb_rt_draw_down`: wait (bounded by 1000 ms) for the anchored write
URBs, killing them on timeout — either way every outstanding write
completes, with a status from `st` — then `usb_kill_urb` the bulk-in URB,
which runs the read completion callback with -ENOENT when a receive is
outstanding and is a no-op otherwise. -/
def usb_rt_draw_down (dev : UsbRtDev) (st : Nat → Int) : UsbRtDev :=
  let dev := complete_writes st dev.submitted_writes dev
  if dev.ongoing_read then usb_rt_read_bulk_callback dev (-ENOENT) 0 else dev

/-- `usb_rt_flush`: under `io_mutex`, draw down, then read out and clear
the error slot, translating -EPIPE to itself and any other recorded error
to - EIO. -/
def usb_rt_flush (dev : UsbRtDev) (st : Nat → Int) : Int × UsbRtDev :=
  let dev := usb_rt_draw_down dev st
  ((if dev.errors ≠ 0 then (if dev.errors = -EPIPE then -EPIPE else - EIO)
    else 0),
   { dev with errors := 0 })

/-- v1 `usb_rt_poll`: always POLLWRNORM|POLLPRI|POLLOUT; with no receive
outstanding, add POLLRDNORM|POLLIN when unread bytes remain, otherwise
trigger a new receive as a side effect.  The error slot is never
consulted. -/
def usb_rt_poll_v1 (dev : UsbRtDev) (submit_rv : Int) : Nat × UsbRtDev :=
  let retval := POLLWRNORM ||| POLLPRI ||| POLLOUT
  if dev.ongoing_read then (retval, dev)
  else if dev.bulk_in_filled - dev.bulk_in_copied ≠ 0 then
    (retval ||| POLLRDNORM ||| POLLIN, dev)
  else
    (retval, (usb_rt_do_read_io dev dev.bulk_in_size submit_rv).2)

/-- The value of a negative errno stored into the `unsigned int` poll
return. -/
def uint_of_int (i : Int) : Nat := (i % (2 ^ 32)).toNat

/-- v2 `usb_rt_poll`: -ENODEV (through the unsigned return) after
disconnect; default mask while a receive is outstanding; bare POLLERR when
the error slot is set; POLLRDNORM|POLLIN added when unread bytes remain;
otherwise trigger a new receive, answering bare POLLERR if its submission
fails.  The interruptible `io_mutex` acquisition is taken to succeed. -/
def usb_rt_poll_v2 (dev : UsbRtDev) (submit_rv : Int) : Nat × UsbRtDev :=
  let retval := POLLWRNORM ||| POLLPRI ||| POLLOUT
  if dev.connected = false then (uint_of_int (-ENODEV), dev)
  else if dev.ongoing_read then (retval, dev)
  else if dev.errors ≠ 0 then (POLLERR, dev)
  else if dev.bulk_in_filled - dev.bulk_in_copied ≠ 0 then
    (retval ||| POLLRDNORM ||| POLLIN, dev)
  else
    let r := usb_rt_do_read_io dev dev.bulk_in_size submit_rv
    if r.1 ≠ 0 then (POLLERR, r.2) else (retval, r.2)

/-- The externally visible actions `usb_rt_disconnect` performs, in
order. -/
inductive DiscEv where
  | deregister_dev
  | mark_torn_down
  | kill_receive_urb
  | kill_anchored_urbs
  | kref_put
deriving DecidableEq, Repr

/-- `usb_kill_anchored_urbs(&dev->submitted)`: every anchored write URB
completes with -ENOENT. -/
def kill_anchored (dev : UsbRtDev) : UsbRtDev :=
  complete_writes (fun _ => -ENOENT) dev.submitted_writes dev

/-- `usb_kill_urb(dev->bulk_in_urb)`: runs the read completion callback
with -ENOENT when a receive is outstanding, no-op otherwise. -/
def kill_receive (dev : UsbRtDev) : UsbRtDev :=
  if dev.ongoing_read then usb_rt_read_bulk_callback dev (-ENOENT) 0 else dev

/-- v1 `usb_rt_disconnect`: deregister the device node, clear
`dev->interface` under `io_mutex`, kill the anchored write URBs (the
bulk-in URB is not touched), drop the attach-time kref. -/
def usb_rt_disconnect_v1 (dev : UsbRtDev) : UsbRtDev × List DiscEv :=
  let dev := { dev with connected := false }
  (kill_anchored dev,
   [DiscEv.deregister_dev, DiscEv.mark_torn_down,
    DiscEv.kill_anchored_urbs, DiscEv.kref_put])

/-- v2 `usb_rt_disconnect`: deregister the device node, set
`dev->disconnected` under `io_mutex`, kill the bulk-in URB and then the
anchored write URBs, drop the attach-time kref. -/
def usb_rt_disconnect_v2 (dev : UsbRtDev) : UsbRtDev × List DiscEv :=
  let dev := { dev with connected := false }
  (kill_anchored (kill_receive dev),
   [DiscEv.deregister_dev, DiscEv.mark_torn_down, DiscEv.kill_receive_urb,
    DiscEv.kill_anchored_urbs, DiscEv.kref_put])

/-- One interleaved occurrence in a session's history: a caller-side file
operation, a completion callback (a read completion can only fire while a
receive is outstanding, a write completion only while a write URB is
outstanding), or a lifecycle event. -/
inductive Op where
  | op_read (bounded : Bool) (count : Nat) (nonblock : Bool)
      (iters : List ReadIter)
  | op_write (writeMax : Nat) (count : Nat) (nonblock : Bool) (o : WriteOracle)
  | op_poll_v1 (submit_rv : Int)
  | op_poll_v2 (submit_rv : Int)
  | op_flush (st : Nat → Int)
  | op_read_cb (status : Int) (len : Nat)
  | op_write_cb (status : Int)
  | op_do_read_io (count : Nat) (submit_rv : Int)
  | op_disconnect_v1
  | op_disconnect_v2
  | op_suspend (st : Nat → Int)
  | op_pre_reset (st : Nat → Int)
  | op_post_reset

/-- Effect of one occurrence on the session state (results are discarded;
a read run whose oracle list was too short leaves no modelled state). -/
def step (dev : UsbRtDev) : Op → UsbRtDev
  | Op.op_read bounded count nonblock iters =>
      match usb_rt_read bounded dev count nonblock iters with
      | some (_, d) => d
      | none => dev
  | Op.op_write writeMax count nonblock o =>
      (usb_rt_write writeMax dev count nonblock o).dev
  | Op.op_poll_v1 submit_rv => (usb_rt_poll_v1 dev submit_rv).2
  | Op.op_poll_v2 submit_rv => (usb_rt_poll_v2 dev submit_rv).2
  | Op.op_flush st => (usb_rt_flush dev st).2
  | Op.op_read_cb status len =>
      if dev.ongoing_read then usb_rt_read_bulk_callback dev status len
      else dev
  | Op.op_write_cb status =>
      if dev.submitted_writes ≠ 0 then usb_rt_write_bulk_callback dev status
      else dev
  | Op.op_do_read_io count submit_rv =>
      (usb_rt_do_read_io dev count submit_rv).2
  | Op.op_disconnect_v1 => (usb_rt_disconnect_v1 dev).1
  | Op.op_disconnect_v2 => (usb_rt_disconnect_v2 dev).1
  | Op.op_suspend st => usb_rt_draw_down dev st
  | Op.op_pre_reset st => usb_rt_draw_down dev st
  | Op.op_post_reset => { dev with errors := -EPIPE }

/-- State of a freshly probed session (`kzalloc` zeroes the counters;
the semaphore starts at WRITES_IN_FLIGHT). -/
def init (in_size out_size cap : Nat) : UsbRtDev :=
  { bulk_in_size := in_size, bulk_out_size := out_size,
    bulk_in_filled := 0, bulk_in_copied := 0, errors := 0,
    ongoing_read := false, limit_sem := cap, connected := true,
    submitted_writes := 0 }

/-- A session history: the fold of `step` over a list of occurrences. -/
def run (dev : UsbRtDev) (ops : List Op) : UsbRtDev :=
  ops.foldl step dev

/-- The receive-buffer invariant: `copied ≤ filled`, and `copied` has been
reset whenever a receive is outstanding. -/
def Inv (dev : UsbRtDev) : Prop :=
  dev.bulk_in_copied ≤ dev.bulk_in_filled ∧
    (dev.ongoing_read = true → dev.bulk_in_copied = 0)

instance (dev : UsbRtDev) : Decidable (Inv dev) := by
  unfold Inv; infer_instance

/-- A freshly probed session of a device with 64-byte bulk endpoints and
admission capacity 8, used as a concrete evaluation point. -/
def dev0 : UsbRtDev := init 64 64 8

/-- A write oracle on which nothing goes wrong. -/
def okW : WriteOracle := ⟨false, false, false, false, 0⟩

/-- `dev0` with a recorded stall in the error slot. -/
def devStall : UsbRtDev := { dev0 with errors := -EPIPE }

/-- `dev0` with a receive transfer outstanding. -/
def devOngoing : UsbRtDev := { dev0 with ongoing_read := true }

/-- `dev0` with a completed 32-byte receive of which 4 bytes were already
consumed. -/
def devData : UsbRtDev :=
  { dev0 with bulk_in_filled := 32, bulk_in_copied := 4 }

@[simp] theorem write_cb_limit_sem (d : UsbRtDev) (s : Int) :
    (usb_rt_write_bulk_callback d s).limit_sem = d.limit_sem + 1 := by
  unfold usb_rt_write_bulk_callback; split <;> rfl

@[simp] theorem write_cb_submitted (d : UsbRtDev) (s : Int) :
    (usb_rt_write_bulk_callback d s).submitted_writes =
      d.submitted_writes - 1 := by
  unfold usb_rt_write_bulk_callback; split <;> rfl

@[simp] theorem write_cb_ongoing (d : UsbRtDev) (s : Int) :
    (usb_rt_write_bulk_callback d s).ongoing_read = d.ongoing_read := by
  unfold usb_rt_write_bulk_callback; split <;> rfl

@[simp] theorem write_cb_filled (d : UsbRtDev) (s : Int) :
    (usb_rt_write_bulk_callback d s).bulk_in_filled = d.bulk_in_filled := by
  unfold usb_rt_write_bulk_callback; split <;> rfl

@[simp] theorem write_cb_copied (d : UsbRtDev) (s : Int) :
    (usb_rt_write_bulk_callback d s).bulk_in_copied = d.bulk_in_copied := by
  unfold usb_rt_write_bulk_callback; split <;> rfl

@[simp] theorem write_cb_connected (d : UsbRtDev) (s : Int) :
    (usb_rt_write_bulk_callback d s).connected = d.connected := by
  unfold usb_rt_write_bulk_callback; split <;> rfl

@[simp] theorem write_cb_errors (d : UsbRtDev) (s : Int) :
    (usb_rt_write_bulk_callback d s).errors =
      (if s ≠ 0 then s else d.errors) := by
  unfold usb_rt_write_bulk_callback; split <;> simp_all

@[simp] theorem read_cb_ongoing (d : UsbRtDev) (s : Int) (len : Nat) :
    (usb_rt_read_bulk_callback d s len).ongoing_read = false := by
  unfold usb_rt_read_bulk_callback; split <;> rfl

@[simp] theorem read_cb_copied (d : UsbRtDev) (s : Int) (len : Nat) :
    (usb_rt_read_bulk_callback d s len).bulk_in_copied = d.bulk_in_copied := by
  unfold usb_rt_read_bulk_callback; split <;> rfl

@[simp] theorem read_cb_filled (d : UsbRtDev) (s : Int) (len : Nat) :
    (usb_rt_read_bulk_callback d s len).bulk_in_filled =
      (if s ≠ 0 then d.bulk_in_filled else len) := by
  unfold usb_rt_read_bulk_callback; split <;> simp_all

@[simp] theorem read_cb_errors (d : UsbRtDev) (s : Int) (len : Nat) :
    (usb_rt_read_bulk_callback d s len).errors =
      (if s ≠ 0 then s else d.errors) := by
  unfold usb_rt_read_bulk_callback; split <;> simp_all

@[simp] theorem read_cb_limit_sem (d : UsbRtDev) (s : Int) (len : Nat) :
    (usb_rt_read_bulk_callback d s len).limit_sem = d.limit_sem := by
  unfold usb_rt_read_bulk_callback; split <;> rfl

@[simp] theorem read_cb_submitted (d : UsbRtDev) (s : Int) (len : Nat) :
    (usb_rt_read_bulk_callback d s len).submitted_writes =
      d.submitted_writes := by
  unfold usb_rt_read_bulk_callback; split <;> rfl

@[simp] theorem read_cb_connected (d : UsbRtDev) (s : Int) (len : Nat) :
    (usb_rt_read_bulk_callback d s len).connected = d.connected := by
  unfold usb_rt_read_bulk_callback; split <;> rfl

@[simp] theorem do_read_io_filled (d : UsbRtDev) (count : Nat) (s : Int) :
    (usb_rt_do_read_io d count s).2.bulk_in_filled = 0 := by
  unfold usb_rt_do_read_io; split <;> rfl

@[simp] theorem do_read_io_copied (d : UsbRtDev) (count : Nat) (s : Int) :
    (usb_rt_do_read_io d count s).2.bulk_in_copied = 0 := by
  unfold usb_rt_do_read_io; split <;> rfl

@[simp] theorem do_read_io_errors (d : UsbRtDev) (count : Nat) (s : Int) :
    (usb_rt_do_read_io d count s).2.errors = d.errors := by
  unfold usb_rt_do_read_io; split <;> rfl

@[simp] theorem do_read_io_connected (d : UsbRtDev) (count : Nat) (s : Int) :
    (usb_rt_do_read_io d count s).2.connected = d.connected := by
  unfold usb_rt_do_read_io; split <;> rfl

@[simp] theorem do_read_io_limit_sem (d : UsbRtDev) (count : Nat) (s : Int) :
    (usb_rt_do_read_io d count s).2.limit_sem = d.limit_sem := by
  unfold usb_rt_do_read_io; split <;> rfl

@[simp] theorem do_read_io_submitted (d : UsbRtDev) (count : Nat) (s : Int) :
    (usb_rt_do_read_io d count s).2.submitted_writes = d.submitted_writes := by
  unfold usb_rt_do_read_io; split <;> rfl

theorem do_read_io_ongoing (d : UsbRtDev) (count : Nat) (s : Int) :
    (usb_rt_do_read_io d count s).2.ongoing_read = (decide (¬ s < 0)) := by
  unfold usb_rt_do_read_io; split <;> simp_all

/-- A zero-length write returns 0 without acquiring anything. -/
theorem write_count_zero (writeMax : Nat) (dev : UsbRtDev) (nonblock : Bool)
    (o : WriteOracle) :
    usb_rt_write writeMax dev 0 nonblock o = ⟨0, dev, false⟩ := by
  simp [usb_rt_write]

/-- A blocking write that is not interrupted takes a slot and continues
past admission. -/
theorem write_blocking_eq (writeMax : Nat) (dev : UsbRtDev) (count : Nat)
    (o : WriteOracle) (hc : count ≠ 0) (hi : o.acq_interrupted = false) :
    usb_rt_write writeMax dev count false o =
      usb_rt_write_after_acq writeMax
        { dev with limit_sem := dev.limit_sem - 1 } count o := by
  simp [usb_rt_write, hc, hi]

/-- A nonblocking write finding a free slot takes it and continues past
admission. -/
theorem write_nonblocking_eq (writeMax : Nat) (dev : UsbRtDev) (count : Nat)
    (o : WriteOracle) (hc : count ≠ 0) (hs : dev.limit_sem ≠ 0) :
    usb_rt_write writeMax dev count true o =
      usb_rt_write_after_acq writeMax
        { dev with limit_sem := dev.limit_sem - 1 } count o := by
  simp [usb_rt_write, hc, hs]

/-- After admission, a successful run returns the truncated length. -/
theorem after_acq_submitted_retval (writeMax : Nat) (dev : UsbRtDev)
    (count : Nat) (o : WriteOracle)
    (h : (usb_rt_write_after_acq writeMax dev count o).urb_submitted = true) :
    (usb_rt_write_after_acq writeMax dev count o).retval =
      ((min count writeMax : Nat) : Int) := by
  unfold usb_rt_write_after_acq at h ⊢
  split_ifs at h ⊢ <;> simp_all

/-- After admission, the success path keeps the counter down and every
error path restores it. -/
theorem after_acq_sem (writeMax : Nat) (dev : UsbRtDev) (count : Nat)
    (o : WriteOracle) :
    ((usb_rt_write_after_acq writeMax dev count o).urb_submitted = true →
      (usb_rt_write_after_acq writeMax dev count o).dev.limit_sem =
        dev.limit_sem) ∧
    ((usb_rt_write_after_acq writeMax dev count o).urb_submitted = false →
      (usb_rt_write_after_acq writeMax dev count o).dev.limit_sem =
        dev.limit_sem + 1) := by
  unfold usb_rt_write_after_acq
  split_ifs <;> simp

/-- A successful `usb_rt_write` run returns the truncated length. -/
theorem write_submitted_retval (writeMax : Nat) (dev : UsbRtDev) (count : Nat)
    (nonblock : Bool) (o : WriteOracle)
    (h : (usb_rt_write writeMax dev count nonblock o).urb_submitted = true) :
    (usb_rt_write writeMax dev count nonblock o).retval =
      ((min count writeMax : Nat) : Int) := by
  rcases Nat.eq_zero_or_pos count with hc | hc
  · rw [hc, write_count_zero] at h; simp at h
  have hc' : count ≠ 0 := Nat.pos_iff_ne_zero.mp hc
  cases nonblock with
  | false =>
    by_cases hi : o.acq_interrupted = true
    · simp [usb_rt_write, hc', hi] at h
    · have hi' : o.acq_interrupted = false := by simpa using hi
      rw [write_blocking_eq _ _ _ _ hc' hi'] at h ⊢
      exact after_acq_submitted_retval _ _ _ _ h
  | true =>
    by_cases hs : dev.limit_sem = 0
    · simp [usb_rt_write, hc', hs] at h
    · rw [write_nonblocking_eq _ _ _ _ hc' hs] at h ⊢
      exact after_acq_submitted_retval _ _ _ _ h

/-- C10: when submitting a new receive transfer fails synchronously,
`usb_rt_do_read_io` leaves the session with the ongoing-receive flag
cleared and `filled = copied = 0`, returns -ENOMEM passed through or - EIO
for every other submission failure code, and does not touch the shared
error slot. -/
theorem c10_do_read_io_failure (dev : UsbRtDev) (count : Nat)
    (submit_rv : Int) (h : submit_rv < 0) :
    (usb_rt_do_read_io dev count submit_rv).1 =
      (if submit_rv = -ENOMEM then submit_rv else - EIO) ∧
    (usb_rt_do_read_io dev count submit_rv).2.ongoing_read = false ∧
    (usb_rt_do_read_io dev count submit_rv).2.bulk_in_filled = 0 ∧
    (usb_rt_do_read_io dev count submit_rv).2.bulk_in_copied = 0 ∧
    (usb_rt_do_read_io dev count submit_rv).2.errors = dev.errors := by
  simp [usb_rt_do_read_io, h]

/-- C10 witness: a failed submission with code -5 on `dev0`. -/
theorem c10_witness :
    (-5 : Int) < 0 ∧
    ((usb_rt_do_read_io dev0 32 (-5)).1 =
      (if (-5 : Int) = -ENOMEM then (-5 : Int) else - EIO) ∧
    (usb_rt_do_read_io dev0 32 (-5)).2.ongoing_read = false ∧
    (usb_rt_do_read_io dev0 32 (-5)).2.bulk_in_filled = 0 ∧
    (usb_rt_do_read_io dev0 32 (-5)).2.bulk_in_copied = 0 ∧
    (usb_rt_do_read_io dev0 32 (-5)).2.errors = dev0.errors) :=
  ⟨by decide, c10_do_read_io_failure dev0 32 (-5) (by decide)⟩

/-- C4: every successful write is truncated to the variant's maximum
transfer size — MAX_TRANSFER in v1, the fixed `bulk_out_size` in v2 — and
returns that truncated length `min count max`, not the caller's requested
length. -/
theorem c4_write_truncated (dev : UsbRtDev) (count : Nat) (nonblock : Bool)
    (o : WriteOracle)
    (h1 : (usb_rt_write_v1 dev count nonblock o).urb_submitted = true)
    (h2 : (usb_rt_write_v2 dev count nonblock o).urb_submitted = true) :
    (usb_rt_write_v1 dev count nonblock o).retval =
      ((min count MAX_TRANSFER : Nat) : Int) ∧
    (usb_rt_write_v2 dev count nonblock o).retval =
      ((min count dev.bulk_out_size : Nat) : Int) :=
  ⟨write_submitted_retval MAX_TRANSFER dev count nonblock o h1,
   write_submitted_retval dev.bulk_out_size dev count nonblock o h2⟩

/-- C4 witness: with maximum transfer size 64 (the `bulk_out_size` of
`dev0`), `write(count = 100)` succeeds and returns 64. -/
theorem c4_witness :
    (usb_rt_write_v1 dev0 100 false okW).urb_submitted = true ∧
    (usb_rt_write_v2 dev0 100 false okW).urb_submitted = true ∧
    (usb_rt_write_v2 dev0 100 false okW).retval = 64 ∧
    (usb_rt_write_v1 dev0 100 false okW).retval = 100 :=
  ⟨by decide, by decide, by
    have h := (c4_write_truncated dev0 100 false okW (by decide) (by decide)).2
    simpa using h,
   by
    have h := (c4_write_truncated dev0 100 false okW (by decide) (by decide)).1
    simpa [MAX_TRANSFER] using h⟩

/-- C1: once a write has acquired an admission slot, the slot is given
back exactly once.  The completion notification unconditionally releases
it whatever the URB status; a write whose URB was handed to the USB core
leaves the counter down by exactly one until that single completion
restores it; and every write error path after acquisition restores the
counter exactly once before returning. -/
theorem c1_admission_slot_released_once (writeMax : Nat) (dev : UsbRtDev)
    (count : Nat) (nonblock : Bool) (o : WriteOracle) (d : UsbRtDev)
    (s : Int) (hc : 0 < count) (hs : 0 < dev.limit_sem)
    (hi : o.acq_interrupted = false) :
    (usb_rt_write_bulk_callback d s).limit_sem = d.limit_sem + 1 ∧
    ((usb_rt_write writeMax dev count nonblock o).urb_submitted = true →
      (usb_rt_write writeMax dev count nonblock o).dev.limit_sem + 1 =
        dev.limit_sem ∧
      ∀ s2, (usb_rt_write_bulk_callback
          (usb_rt_write writeMax dev count nonblock o).dev s2).limit_sem =
        dev.limit_sem) ∧
    ((usb_rt_write writeMax dev count nonblock o).urb_submitted = false →
      (usb_rt_write writeMax dev count nonblock o).dev.limit_sem =
        dev.limit_sem) := by
  have heq : usb_rt_write writeMax dev count nonblock o =
      usb_rt_write_after_acq writeMax
        { dev with limit_sem := dev.limit_sem - 1 } count o := by
    cases nonblock with
    | false => exact write_blocking_eq _ _ _ _ (Nat.pos_iff_ne_zero.mp hc) hi
    | true =>
      exact write_nonblocking_eq _ _ _ _ (Nat.pos_iff_ne_zero.mp hc)
        (Nat.pos_iff_ne_zero.mp hs)
  have hsem := after_acq_sem writeMax
    { dev with limit_sem := dev.limit_sem - 1 } count o
  simp only at hsem
  refine ⟨write_cb_limit_sem d s, ?_, ?_⟩
  · intro hsub
    rw [heq] at hsub ⊢
    have h1 := hsem.1 hsub
    refine ⟨by rw [h1]; omega, fun s2 => ?_⟩
    rw [write_cb_limit_sem, h1]
    omega
  · intro hsub
    rw [heq] at hsub ⊢
    have h1 := hsem.2 hsub
    rw [h1]
    omega

theorem complete_writes_fields (st : Nat → Int) :
    ∀ (n : Nat) (dev : UsbRtDev),
      (complete_writes st n dev).submitted_writes =
        dev.submitted_writes - n ∧
      (complete_writes st n dev).ongoing_read = dev.ongoing_read ∧
      (complete_writes st n dev).connected = dev.connected ∧
      (complete_writes st n dev).bulk_in_filled = dev.bulk_in_filled ∧
      (complete_writes st n dev).bulk_in_copied = dev.bulk_in_copied ∧
      (complete_writes st n dev).limit_sem = dev.limit_sem + n := by
  intro n
  induction n with
  | zero => intro dev; simp [complete_writes]
  | succ n ih =>
    intro dev
    obtain ⟨h1, h2, h3, h4, h5, h6⟩ := ih (usb_rt_write_bulk_callback dev (st n))
    unfold complete_writes
    refine ⟨?_, ?_, ?_, ?_, ?_, ?_⟩
    · rw [h1, write_cb_submitted]; omega
    · rw [h2, write_cb_ongoing]
    · rw [h3, write_cb_connected]
    · rw [h4, write_cb_filled]
    · rw [h5, write_cb_copied]
    · rw [h6, write_cb_limit_sem]; omega

theorem draw_down_drained (dev : UsbRtDev) (st : Nat → Int) :
    (usb_rt_draw_down dev st).submitted_writes = 0 ∧
    (usb_rt_draw_down dev st).ongoing_read = false ∧
    (usb_rt_draw_down dev st).connected = dev.connected ∧
    (usb_rt_draw_down dev st).bulk_in_copied = dev.bulk_in_copied := by
  obtain ⟨h1, h2, h3, _, h5, _⟩ :=
    complete_writes_fields st dev.submitted_writes dev
  simp only [usb_rt_draw_down]
  split
  · refine ⟨?_, ?_, ?_, ?_⟩
    · rw [read_cb_submitted, h1]; omega
    · rw [read_cb_ongoing]
    · rw [read_cb_connected, h3]
    · rw [read_cb_copied, h5]
  · next hgo =>
    refine ⟨by rw [h1]; omega, ?_, h3, h5⟩
    simpa using hgo

/-- Draw-down of an already drained session changes nothing. -/
theorem draw_down_idle (dev : UsbRtDev) (st : Nat → Int)
    (h1 : dev.submitted_writes = 0) (h2 : dev.ongoing_read = false) :
    usb_rt_draw_down dev st = dev := by
  unfold usb_rt_draw_down
  rw [h1]
  simp [complete_writes, h2]

theorem flush_fields (dev : UsbRtDev) (st : Nat → Int) :
    (usb_rt_flush dev st).2.errors = 0 ∧
    (usb_rt_flush dev st).2.submitted_writes = 0 ∧
    (usb_rt_flush dev st).2.ongoing_read = false := by
  obtain ⟨d1, d2, _, _⟩ := draw_down_drained dev st
  unfold usb_rt_flush
  exact ⟨rfl, by simpa using d1, by simpa using d2⟩

/-- Flush of a drained session with a clean error slot reports no
error. -/
theorem flush_clean (dev : UsbRtDev) (st : Nat → Int)
    (h1 : dev.submitted_writes = 0) (h2 : dev.ongoing_read = false)
    (h3 : dev.errors = 0) : (usb_rt_flush dev st).1 = 0 := by
  simp only [usb_rt_flush]
  rw [draw_down_idle dev st h1 h2]
  simp [h3]

/-- C8: `usb_rt_flush` reads out and clears the error slot after
draw-down, translating a recorded stall to -EPIPE and any other recorded
error to - EIO, and answering no error when the slot is clear; hence two
consecutive flushes with nothing recorded in between both succeed and the
second always reports no error. -/
theorem c8_flush_idempotent (dev : UsbRtDev) (st st2 : Nat → Int) :
    (usb_rt_flush dev st).1 =
      (if (usb_rt_draw_down dev st).errors = 0 then 0
       else if (usb_rt_draw_down dev st).errors = -EPIPE then -EPIPE
       else - EIO) ∧
    (usb_rt_flush dev st).2.errors = 0 ∧
    (usb_rt_flush (usb_rt_flush dev st).2 st2).1 = 0 := by
  obtain ⟨e0, s0, g0⟩ := flush_fields dev st
  refine ⟨?_, e0, flush_clean _ st2 s0 g0 e0⟩
  unfold usb_rt_flush
  split_ifs <;> simp_all

theorem kill_anchored_fields (dev : UsbRtDev) :
    (kill_anchored dev).submitted_writes = 0 ∧
    (kill_anchored dev).ongoing_read = dev.ongoing_read ∧
    (kill_anchored dev).connected = dev.connected ∧
    (kill_anchored dev).bulk_in_copied = dev.bulk_in_copied := by
  obtain ⟨h1, h2, h3, _, h5, _⟩ :=
    complete_writes_fields (fun _ => -ENOENT) dev.submitted_writes dev
  unfold kill_anchored
  exact ⟨by rw [h1]; omega, h2, h3, h5⟩

theorem kill_receive_fields (dev : UsbRtDev) :
    (kill_receive dev).ongoing_read = false ∧
    (kill_receive dev).connected = dev.connected ∧
    (kill_receive dev).submitted_writes = dev.submitted_writes ∧
    (kill_receive dev).bulk_in_copied = dev.bulk_in_copied := by
  unfold kill_receive
  split
  · exact ⟨read_cb_ongoing _ _ _, read_cb_connected _ _ _,
      read_cb_submitted _ _ _, read_cb_copied _ _ _⟩
  · next hgo => exact ⟨by simpa using hgo, rfl, rfl, rfl⟩

/-- C7 counterexample: with a receive transfer outstanding, the v1
disconnect never cancels the dedicated receive transfer — its action trace
has no receive-cancel step and the receive is still outstanding
afterwards. -/
theorem c7_counterexample :
    devOngoing.ongoing_read = true ∧
    DiscEv.kill_receive_urb ∉ (usb_rt_disconnect_v1 devOngoing).2 ∧
    (usb_rt_disconnect_v1 devOngoing).1.ongoing_read = true := by decide

/-- C7 amended: disconnect unregisters the device node, marks the session
torn down under the serializing lock, directly cancels transfers without
the bounded draw-down wait — in v1 only the tracked send transfers,
leaving the dedicated receive transfer uncancelled; in v2 the dedicated
receive transfer and then the tracked send transfers — and finally
releases the attach-time reference. -/
theorem c7_disconnect_amended (dev : UsbRtDev) :
    (usb_rt_disconnect_v1 dev).2 =
      [DiscEv.deregister_dev, DiscEv.mark_torn_down,
       DiscEv.kill_anchored_urbs, DiscEv.kref_put] ∧
    (usb_rt_disconnect_v2 dev).2 =
      [DiscEv.deregister_dev, DiscEv.mark_torn_down,
       DiscEv.kill_receive_urb, DiscEv.kill_anchored_urbs,
       DiscEv.kref_put] ∧
    (usb_rt_disconnect_v1 dev).1.connected = false ∧
    (usb_rt_disconnect_v2 dev).1.connected = false ∧
    (usb_rt_disconnect_v1 dev).1.submitted_writes = 0 ∧
    (usb_rt_disconnect_v2 dev).1.submitted_writes = 0 ∧
    (usb_rt_disconnect_v1 dev).1.ongoing_read = dev.ongoing_read ∧
    (usb_rt_disconnect_v2 dev).1.ongoing_read = false ∧
    DiscEv.kill_receive_urb ∉ (usb_rt_disconnect_v1 dev).2 := by
  obtain ⟨a1, a2, a3, _⟩ :=
    kill_anchored_fields { dev with connected := false }
  obtain ⟨r1, r2, r3, _⟩ := kill_receive_fields { dev with connected := false }
  obtain ⟨b1, b2, b3, _⟩ :=
    kill_anchored_fields (kill_receive { dev with connected := false })
  simp only [usb_rt_disconnect_v1, usb_rt_disconnect_v2]
  refine ⟨by trivial, by trivial, ?_, ?_, ?_, ?_, ?_, ?_, by decide⟩
  · simp [a3]
  · simp [b3, r2]
  · exact a1
  · exact b1
  · simp [a2]
  · simp [b2, r1]

theorem poll_v1_spec (dev : UsbRtDev) (s : Int) :
    ((usb_rt_poll_v1 dev s).1 &&& (POLLWRNORM ||| POLLPRI ||| POLLOUT) =
      (POLLWRNORM ||| POLLPRI ||| POLLOUT)) ∧
    ((usb_rt_poll_v1 dev s).1 &&& POLLERR = 0) ∧
    (((usb_rt_poll_v1 dev s).1 &&& POLLIN ≠ 0) ↔
      (dev.ongoing_read = false ∧
       dev.bulk_in_filled - dev.bulk_in_copied ≠ 0)) ∧
    (dev.ongoing_read = false → dev.bulk_in_filled - dev.bulk_in_copied = 0 →
      (usb_rt_poll_v1 dev s).2 =
        (usb_rt_do_read_io dev dev.bulk_in_size s).2) ∧
    (dev.ongoing_read = true ∨ dev.bulk_in_filled - dev.bulk_in_copied ≠ 0 →
      (usb_rt_poll_v1 dev s).2 = dev) := by
  simp only [usb_rt_poll_v1, POLLWRNORM, POLLPRI, POLLOUT, POLLERR, POLLIN,
    POLLRDNORM]
  split_ifs with hgo hdat <;>
    refine ⟨?_, ?_, ?_, ?_, ?_⟩ <;>
    first
    | decide
    | (simp_all; decide)
    | simp_all

theorem poll_v2_spec (dev : UsbRtDev) (s : Int)
    (hconn : dev.connected = true) :
    ((usb_rt_poll_v2 dev s).1 = POLLERR ∨
      (usb_rt_poll_v2 dev s).1 &&& (POLLWRNORM ||| POLLPRI ||| POLLOUT) =
        (POLLWRNORM ||| POLLPRI ||| POLLOUT)) ∧
    (dev.ongoing_read = false → dev.errors ≠ 0 →
      (usb_rt_poll_v2 dev s).1 = POLLERR) ∧
    (((usb_rt_poll_v2 dev s).1 &&& POLLIN ≠ 0) ↔
      (dev.ongoing_read = false ∧ dev.errors = 0 ∧
       dev.bulk_in_filled - dev.bulk_in_copied ≠ 0)) ∧
    (dev.ongoing_read = false → dev.errors = 0 →
      dev.bulk_in_filled - dev.bulk_in_copied = 0 →
      (usb_rt_poll_v2 dev s).2 =
        (usb_rt_do_read_io dev dev.bulk_in_size s).2) := by
  simp only [usb_rt_poll_v2, POLLWRNORM, POLLPRI, POLLOUT, POLLERR, POLLIN,
    POLLRDNORM, hconn]
  split_ifs with h1 h2 h3 h4 h5 <;>
    refine ⟨?_, ?_, ?_, ?_⟩ <;>
    first
    | decide
    | (simp_all; decide)
    | simp_all

/-- C6 counterexample: on a connected session with a stall recorded in the
error slot and no receive outstanding, the v1 readiness query reports no
error condition at all (and the claim requires one whenever the slot is
set). -/
theorem c6_counterexample :
    devStall.errors ≠ 0 ∧
    (usb_rt_poll_v1 devStall 0).1 &&& POLLERR = 0 := by decide

/-- C6 amended: the v1 readiness query always reports the session
writable and never reports an error condition, even when the error slot is
set; it reports readable iff unread bytes remain and no receive is
outstanding, and in the remaining case starts a new receive transfer as a
side effect.  On a connected session, the v2 readiness query reports
writable except when it answers a bare error condition; it reports exactly
an error condition when the error slot is set and no receive is
outstanding; it reports readable iff unread bytes remain, no receive is
outstanding and the error slot is clear; and in the remaining case it
starts a new receive transfer as a side effect. -/
theorem c6_poll_amended (dev : UsbRtDev) (s : Int) :
    ((usb_rt_poll_v1 dev s).1 &&& (POLLWRNORM ||| POLLPRI ||| POLLOUT) =
      (POLLWRNORM ||| POLLPRI ||| POLLOUT)) ∧
    ((usb_rt_poll_v1 dev s).1 &&& POLLERR = 0) ∧
    (((usb_rt_poll_v1 dev s).1 &&& POLLIN ≠ 0) ↔
      (dev.ongoing_read = false ∧
       dev.bulk_in_filled - dev.bulk_in_copied ≠ 0)) ∧
    (dev.ongoing_read = false → dev.bulk_in_filled - dev.bulk_in_copied = 0 →
      (usb_rt_poll_v1 dev s).2 =
        (usb_rt_do_read_io dev dev.bulk_in_size s).2) ∧
    (dev.connected = true →
      ((usb_rt_poll_v2 dev s).1 = POLLERR ∨
        (usb_rt_poll_v2 dev s).1 &&& (POLLWRNORM ||| POLLPRI ||| POLLOUT) =
          (POLLWRNORM ||| POLLPRI ||| POLLOUT)) ∧
      (dev.ongoing_read = false → dev.errors ≠ 0 →
        (usb_rt_poll_v2 dev s).1 = POLLERR) ∧
      (((usb_rt_poll_v2 dev s).1 &&& POLLIN ≠ 0) ↔
        (dev.ongoing_read = false ∧ dev.errors = 0 ∧
         dev.bulk_in_filled - dev.bulk_in_copied ≠ 0)) ∧
      (dev.ongoing_read = false → dev.errors = 0 →
        dev.bulk_in_filled - dev.bulk_in_copied = 0 →
        (usb_rt_poll_v2 dev s).2 =
          (usb_rt_do_read_io dev dev.bulk_in_size s).2)) := by
  obtain ⟨a1, a2, a3, a4, _⟩ := poll_v1_spec dev s
  exact ⟨a1, a2, a3, a4, fun hconn => poll_v2_spec dev s hconn⟩

/-- C6 amended witness: on `devStall` (connected, stall recorded, no
receive outstanding) the v2 readiness query answers exactly the error
condition. -/
theorem c6_amended_witness :
    devStall.connected = true ∧ devStall.ongoing_read = false ∧
    devStall.errors ≠ 0 ∧ (usb_rt_poll_v2 devStall 0).1 = POLLERR :=
  ⟨by decide, by decide, by decide,
   ((c6_poll_amended devStall 0).2.2.2.2 (by decide)).2.1
     (by decide) (by decide)⟩

/-- A receive completion that fires while a receive is outstanding
preserves the buffer invariant. -/
theorem callback_inv (dev : UsbRtDev) (st : Int) (len : Nat)
    (hInv : Inv dev) (hgo : dev.ongoing_read = true) :
    Inv (usb_rt_read_bulk_callback dev st len) := by
  have hc0 := hInv.2 hgo
  constructor
  · rw [read_cb_copied, read_cb_filled]
    split_ifs
    · exact hInv.1
    · rw [hc0]; exact Nat.zero_le _
  · simp

/-- Submitting a receive re-establishes the buffer invariant. -/
theorem do_read_io_inv (dev : UsbRtDev) (count : Nat) (s : Int) :
    Inv (usb_rt_do_read_io dev count s).2 := by
  constructor <;> simp

/-- An early return out of the wait phase leaves the state unchanged and
carries a negative code. -/
theorem wait_inl (bounded nonblock : Bool) (dev : UsbRtDev) (w : WaitRes)
    (rv : Int) (d' : UsbRtDev)
    (h : read_wait_phase bounded nonblock dev w = some (Sum.inl (rv, d'))) :
    d' = dev ∧ rv < 0 := by
  unfold read_wait_phase at h
  split_ifs at h <;> cases w <;>
    simp_all [EAGAIN, ERESTARTSYS, ETIMEDOUT] <;> omega

/-- The state the body continues with after the wait phase satisfies the
buffer invariant and has no receive outstanding. -/
theorem wait_inr_inv (bounded nonblock : Bool) (dev : UsbRtDev) (w : WaitRes)
    (hInv : Inv dev) (d1 : UsbRtDev)
    (h : read_wait_phase bounded nonblock dev w = some (Sum.inr d1)) :
    Inv d1 ∧ d1.ongoing_read = false := by
  unfold read_wait_phase at h
  by_cases hgo : dev.ongoing_read = true
  · rw [if_pos hgo] at h
    by_cases hnb : nonblock = true
    · rw [if_pos hnb] at h; simp at h
    · rw [if_neg hnb] at h
      cases w with
      | interrupted => simp at h
      | timedout =>
        by_cases hb : bounded = true
        · rw [if_pos hb] at h; simp at h
        · rw [if_neg hb] at h; simp at h
      | completed st len =>
        simp only [Option.some.injEq, Sum.inr.injEq] at h
        subst h
        exact ⟨callback_inv dev st len hInv hgo, read_cb_ongoing dev st len⟩
  · rw [if_neg hgo] at h
    simp only [Option.some.injEq, Sum.inr.injEq] at h
    subst h
    exact ⟨hInv, by simpa using hgo⟩

/-- A loop-body outcome built from a receive submission: either an early
negative return or a retry from the freshly submitted state. -/
theorem io_branch_spec (dev : UsbRtDev) (count : Nat) (sv : Int) :
    (∀ rv d', (if (usb_rt_do_read_io dev count sv).1 < 0
        then Sum.inl (usb_rt_do_read_io dev count sv)
        else Sum.inr (usb_rt_do_read_io dev count sv).2) =
          (Sum.inl (rv, d') : Sum (Int × UsbRtDev) UsbRtDev) →
      Inv d' ∧ rv < 0) ∧
    (∀ d2, (if (usb_rt_do_read_io dev count sv).1 < 0
        then Sum.inl (usb_rt_do_read_io dev count sv)
        else Sum.inr (usb_rt_do_read_io dev count sv).2) =
          (Sum.inr d2 : Sum (Int × UsbRtDev) UsbRtDev) →
      Inv d2) := by
  constructor
  · intro rv d' h
    by_cases h4 : (usb_rt_do_read_io dev count sv).1 < 0
    · rw [if_pos h4] at h
      simp only [Sum.inl.injEq] at h
      have hr1 : (usb_rt_do_read_io dev count sv).1 = rv := by rw [h]
      have hr2 : (usb_rt_do_read_io dev count sv).2 = d' := by rw [h]
      rw [← hr2]
      exact ⟨do_read_io_inv dev count sv, by omega⟩
    · rw [if_neg h4] at h; simp at h
  · intro d2 h
    by_cases h4 : (usb_rt_do_read_io dev count sv).1 < 0
    · rw [if_pos h4] at h; simp at h
    · rw [if_neg h4] at h
      simp only [Sum.inr.injEq] at h
      rw [← h]
      exact do_read_io_inv dev count sv

/-- A retry out of the loop body is a freshly submitted receive. -/
theorem step_inr_inv (count : Nat) (dev : UsbRtDev) (it : ReadIter)
    (d2 : UsbRtDev) (h : usb_rt_read_step count dev it = Sum.inr d2) :
    Inv d2 := by
  simp only [usb_rt_read_step] at h
  by_cases h1 : dev.errors < 0
  · rw [if_pos h1] at h; simp at h
  · rw [if_neg h1] at h
    by_cases h2 : dev.bulk_in_filled ≠ 0
    · rw [if_pos h2] at h
      by_cases h3 : dev.bulk_in_filled - dev.bulk_in_copied = 0
      · rw [if_pos h3] at h
        exact (io_branch_spec dev count it.submit_rv).2 d2 h
      · rw [if_neg h3] at h; simp at h
    · rw [if_neg h2] at h
      exact (io_branch_spec dev count it.submit_rv).2 d2 h

/-- A return out of the loop body preserves the invariant, and a
nonnegative return is the byte count of exactly one buffered chunk. -/
theorem step_inl_spec (count : Nat) (dev : UsbRtDev) (it : ReadIter)
    (hInv : Inv dev) (hgo : dev.ongoing_read = false) (rv : Int)
    (d' : UsbRtDev) (h : usb_rt_read_step count dev it = Sum.inl (rv, d')) :
    Inv d' ∧
    (0 ≤ rv → rv.toNat ≤ count ∧
      (0 < rv → ∃ c0, c0 ≤ d'.bulk_in_filled ∧
        d'.bulk_in_copied = c0 + rv.toNat ∧
        rv.toNat = min (d'.bulk_in_filled - c0) count)) := by
  simp only [usb_rt_read_step] at h
  by_cases h1 : dev.errors < 0
  · rw [if_pos h1] at h
    simp only [Sum.inl.injEq, Prod.mk.injEq] at h
    obtain ⟨h5, h6⟩ := h
    subst h5; subst h6
    refine ⟨⟨hInv.1, fun hx => hInv.2 hx⟩, ?_⟩
    intro h0
    exfalso
    by_cases he : dev.errors = -EPIPE
    · rw [if_pos he] at h0; simp [EPIPE] at h0
    · rw [if_neg he] at h0; simp [ EIO] at h0
  · rw [if_neg h1] at h
    by_cases h2 : dev.bulk_in_filled ≠ 0
    · rw [if_pos h2] at h
      by_cases h3 : dev.bulk_in_filled - dev.bulk_in_copied = 0
      · rw [if_pos h3] at h
        obtain ⟨hi, hneg⟩ := (io_branch_spec dev count it.submit_rv).1 rv d' h
        exact ⟨hi, by omega⟩
      · rw [if_neg h3] at h
        simp only [Sum.inl.injEq, Prod.mk.injEq] at h
        obtain ⟨h5, h6⟩ := h
        subst h5; subst h6
        constructor
        · constructor
          · show dev.bulk_in_copied +
              min (dev.bulk_in_filled - dev.bulk_in_copied) count ≤
              dev.bulk_in_filled
            omega
          · intro hx
            exact absurd hx (by simp [hgo])
        · intro h0
          by_cases hf : it.copy_fault = true
          · rw [if_pos hf] at h0 ⊢
            exfalso; simp [EFAULT] at h0
          · rw [if_neg hf] at h0 ⊢
            constructor
            · simp
            · intro _
              refine ⟨dev.bulk_in_copied, hInv.1, ?_, ?_⟩
              · simp
                omega
              · simp
                omega
    · rw [if_neg h2] at h
      obtain ⟨hi, hneg⟩ := (io_branch_spec dev count it.submit_rv).1 rv d' h
      exact ⟨hi, by omega⟩

theorem read_loop_spec (bounded nonblock : Bool) (count : Nat) :
    ∀ (iters : List ReadIter) (dev : UsbRtDev) (rv : Int) (d' : UsbRtDev),
      Inv dev →
      usb_rt_read_loop bounded nonblock count dev iters = some (rv, d') →
      Inv d' ∧
      (0 ≤ rv → rv.toNat ≤ count ∧
        (0 < rv → ∃ c0, c0 ≤ d'.bulk_in_filled ∧
          d'.bulk_in_copied = c0 + rv.toNat ∧
          rv.toNat = min (d'.bulk_in_filled - c0) count)) := by
  intro iters
  induction iters with
  | nil =>
    intro dev rv d' _ h
    simp [usb_rt_read_loop] at h
  | cons it rest ih =>
    intro dev rv d' hInv h
    simp only [usb_rt_read_loop] at h
    cases hw : read_wait_phase bounded nonblock dev it.wait with
    | none => rw [hw] at h; simp at h
    | some x =>
      simp only [hw] at h
      cases x with
      | inl r =>
        obtain ⟨rv1, dv⟩ := r
        simp only [Option.some.injEq, Prod.mk.injEq] at h
        obtain ⟨h5, h6⟩ := h
        subst h5; subst h6
        obtain ⟨hdv, hneg⟩ := wait_inl bounded nonblock dev it.wait rv1 dv hw
        subst hdv
        exact ⟨hInv, fun h0 => absurd h0 (by omega)⟩
      | inr dev1 =>
        obtain ⟨hInv1, hgo1⟩ :=
          wait_inr_inv bounded nonblock dev it.wait hInv dev1 hw
        cases hs : usb_rt_read_step count dev1 it with
        | inl r =>
          obtain ⟨rv1, dv⟩ := r
          simp only [hs] at h
          simp only [Option.some.injEq, Prod.mk.injEq] at h
          obtain ⟨h5, h6⟩ := h
          subst h5; subst h6
          exact step_inl_spec count dev1 it hInv1 hgo1 rv1 dv hs
        | inr dev2 =>
          simp only [hs] at h
          exact ih dev2 rv d' (step_inr_inv count dev1 it dev2 hs) h

/-- The full `usb_rt_read` run preserves the invariant, and a nonnegative
return is bounded by the request and names one buffered chunk. -/
theorem read_spec (bounded : Bool) (dev : UsbRtDev) (count : Nat)
    (nonblock : Bool) (iters : List ReadIter) (rv : Int) (d' : UsbRtDev)
    (hInv : Inv dev)
    (h : usb_rt_read bounded dev count nonblock iters = some (rv, d')) :
    Inv d' ∧
    (0 ≤ rv → rv.toNat ≤ count ∧
      (0 < rv → ∃ c0, c0 ≤ d'.bulk_in_filled ∧
        d'.bulk_in_copied = c0 + rv.toNat ∧
        rv.toNat = min (d'.bulk_in_filled - c0) count)) := by
  unfold usb_rt_read at h
  split_ifs at h with hc hconn
  · simp only [Option.some.injEq, Prod.mk.injEq] at h
    obtain ⟨h5, h6⟩ := h
    subst h5; subst h6
    exact ⟨hInv, fun _ => ⟨by simp, fun h0 => absurd h0 (by omega)⟩⟩
  · simp only [Option.some.injEq, Prod.mk.injEq] at h
    obtain ⟨h5, h6⟩ := h
    subst h5; subst h6
    refine ⟨hInv, fun h0 => absurd h0 (by simp [ENODEV])⟩
  · exact read_loop_spec bounded nonblock count iters dev rv d' hInv h

theorem after_acq_rx_fields (writeMax : Nat) (dev : UsbRtDev) (count : Nat)
    (o : WriteOracle) :
    (usb_rt_write_after_acq writeMax dev count o).dev.bulk_in_filled =
      dev.bulk_in_filled ∧
    (usb_rt_write_after_acq writeMax dev count o).dev.bulk_in_copied =
      dev.bulk_in_copied ∧
    (usb_rt_write_after_acq writeMax dev count o).dev.ongoing_read =
      dev.ongoing_read := by
  unfold usb_rt_write_after_acq
  split_ifs <;> exact ⟨rfl, rfl, rfl⟩

theorem write_rx_fields (writeMax : Nat) (dev : UsbRtDev) (count : Nat)
    (nonblock : Bool) (o : WriteOracle) :
    (usb_rt_write writeMax dev count nonblock o).dev.bulk_in_filled =
      dev.bulk_in_filled ∧
    (usb_rt_write writeMax dev count nonblock o).dev.bulk_in_copied =
      dev.bulk_in_copied ∧
    (usb_rt_write writeMax dev count nonblock o).dev.ongoing_read =
      dev.ongoing_read := by
  unfold usb_rt_write
  split_ifs <;>
    first
    | exact ⟨rfl, rfl, rfl⟩
    | exact after_acq_rx_fields _ _ _ _

theorem write_inv (writeMax : Nat) (dev : UsbRtDev) (count : Nat)
    (nonblock : Bool) (o : WriteOracle) (hInv : Inv dev) :
    Inv (usb_rt_write writeMax dev count nonblock o).dev := by
  obtain ⟨hf, hc, hg⟩ := write_rx_fields writeMax dev count nonblock o
  constructor
  · rw [hc, hf]; exact hInv.1
  · intro hx; rw [hc]; exact hInv.2 (by rw [← hg]; exact hx)

theorem poll_v1_inv (dev : UsbRtDev) (s : Int) (hInv : Inv dev) :
    Inv (usb_rt_poll_v1 dev s).2 := by
  unfold usb_rt_poll_v1
  split_ifs <;>
    first
    | exact hInv
    | exact do_read_io_inv _ _ _

theorem poll_v2_inv (dev : UsbRtDev) (s : Int) (hInv : Inv dev) :
    Inv (usb_rt_poll_v2 dev s).2 := by
  simp only [usb_rt_poll_v2]
  split_ifs <;>
    first
    | exact hInv
    | exact do_read_io_inv _ _ _

theorem draw_down_inv (dev : UsbRtDev) (st : Nat → Int) (hInv : Inv dev) :
    Inv (usb_rt_draw_down dev st) := by
  obtain ⟨_, h2, _, h4, h5, _⟩ :=
    complete_writes_fields st dev.submitted_writes dev
  simp only [usb_rt_draw_down]
  split
  · constructor
    · rw [read_cb_copied, read_cb_filled, if_pos (by simp [ENOENT])]
      rw [h4, h5]; exact hInv.1
    · simp
  · next hgo =>
    constructor
    · rw [h4, h5]; exact hInv.1
    · intro hx; rw [h5]; exact hInv.2 (by rw [← h2]; exact hx)

theorem flush_inv (dev : UsbRtDev) (st : Nat → Int) (hInv : Inv dev) :
    Inv (usb_rt_flush dev st).2 := by
  have h := draw_down_inv dev st hInv
  simp only [usb_rt_flush]
  exact ⟨h.1, fun hx => h.2 hx⟩

theorem kill_anchored_inv (d : UsbRtDev) (hInv : Inv d) :
    Inv (kill_anchored d) := by
  obtain ⟨_, h2, _, h4, h5, _⟩ :=
    complete_writes_fields (fun _ => -ENOENT) d.submitted_writes d
  unfold kill_anchored
  constructor
  · rw [h4, h5]; exact hInv.1
  · intro hx; rw [h5]; exact hInv.2 (by rw [← h2]; exact hx)

theorem kill_receive_inv (d : UsbRtDev) (hInv : Inv d) :
    Inv (kill_receive d) := by
  unfold kill_receive
  split
  · next hgo => exact callback_inv d _ _ hInv hgo
  · exact hInv

/-- Every occurrence preserves the receive-buffer invariant. -/
theorem step_inv (dev : UsbRtDev) (op : Op) (hInv : Inv dev) :
    Inv (step dev op) := by
  cases op with
  | op_read bounded count nonblock iters =>
    simp only [step]
    cases h : usb_rt_read bounded dev count nonblock iters with
    | none => exact hInv
    | some p =>
      obtain ⟨rv, d'⟩ := p
      exact (read_spec bounded dev count nonblock iters rv d' hInv h).1
  | op_write writeMax count nonblock o =>
    exact write_inv writeMax dev count nonblock o hInv
  | op_poll_v1 s => exact poll_v1_inv dev s hInv
  | op_poll_v2 s => exact poll_v2_inv dev s hInv
  | op_flush st => exact flush_inv dev st hInv
  | op_read_cb status len =>
    simp only [step]
    split
    · next hgo => exact callback_inv dev status len hInv hgo
    · exact hInv
  | op_write_cb status =>
    simp only [step]
    split
    · constructor
      · rw [write_cb_copied, write_cb_filled]; exact hInv.1
      · intro hx
        rw [write_cb_copied]
        exact hInv.2 (by rw [← write_cb_ongoing dev status]; exact hx)
    · exact hInv
  | op_do_read_io count s => exact do_read_io_inv dev count s
  | op_disconnect_v1 =>
    simp only [step, usb_rt_disconnect_v1]
    exact kill_anchored_inv _ ⟨hInv.1, fun hx => hInv.2 hx⟩
  | op_disconnect_v2 =>
    simp only [step, usb_rt_disconnect_v2]
    exact kill_anchored_inv _
      (kill_receive_inv _ ⟨hInv.1, fun hx => hInv.2 hx⟩)
  | op_suspend st => exact draw_down_inv dev st hInv
  | op_pre_reset st => exact draw_down_inv dev st hInv
  | op_post_reset => exact ⟨hInv.1, fun hx => hInv.2 hx⟩

theorem run_inv : ∀ (ops : List Op) (dev : UsbRtDev),
    Inv dev → Inv (run dev ops) := by
  intro ops
  induction ops with
  | nil => intro dev h; exact h
  | cons op ops ih =>
    intro dev h
    rw [run, List.foldl_cons]
    exact ih (step dev op) (step_inv dev op h)

theorem init_inv (in_size out_size cap : Nat) :
    Inv (init in_size out_size cap) :=
  ⟨Nat.le_refl 0, fun _ => rfl⟩

theorem after_acq_error (writeMax : Nat) (dev : UsbRtDev) (count : Nat)
    (o : WriteOracle) (herr : dev.errors < 0) :
    usb_rt_write_after_acq writeMax dev count o =
      ⟨(if dev.errors = -EPIPE then -EPIPE else - EIO),
       { dev with errors := 0, limit_sem := dev.limit_sem + 1 }, false⟩ := by
  unfold usb_rt_write_after_acq
  rw [if_pos herr]

theorem after_acq_ok (writeMax : Nat) (dev : UsbRtDev) (count : Nat)
    (herr : ¬ dev.errors < 0) (hconn : dev.connected = true) :
    usb_rt_write_after_acq writeMax dev count ⟨false, false, false, false, 0⟩ =
      ⟨((min count writeMax : Nat) : Int),
       { dev with submitted_writes := dev.submitted_writes + 1 }, true⟩ := by
  unfold usb_rt_write_after_acq
  rw [if_neg herr]
  simp [hconn]

/-- C2: every session state reachable from a fresh probe through the
public operations satisfies `copied ≤ filled`, and a read that returns a
nonnegative count returns at most `count` bytes: the count is
`min (filled - copied) count` of the buffer it copied out of, and
`copied` advances by exactly that amount. -/
theorem c2_buffer_invariant :
    (∀ (in_size out_size cap : Nat) (ops : List Op),
      (run (init in_size out_size cap) ops).bulk_in_copied ≤
        (run (init in_size out_size cap) ops).bulk_in_filled) ∧
    (∀ (bounded : Bool) (dev : UsbRtDev) (count : Nat) (nonblock : Bool)
      (iters : List ReadIter) (rv : Int) (d' : UsbRtDev),
      Inv dev →
      usb_rt_read bounded dev count nonblock iters = some (rv, d') →
      0 ≤ rv →
      rv.toNat ≤ count ∧ d'.bulk_in_copied ≤ d'.bulk_in_filled ∧
      (0 < rv → ∃ c0, c0 ≤ d'.bulk_in_filled ∧
        d'.bulk_in_copied = c0 + rv.toNat ∧
        rv.toNat = min (d'.bulk_in_filled - c0) count)) := by
  constructor
  · intro a b c ops
    exact (run_inv ops (init a b c) (init_inv a b c)).1
  · intro bounded dev count nonblock iters rv d' hInv h h0
    obtain ⟨hi, hp⟩ := read_spec bounded dev count nonblock iters rv d' hInv h
    obtain ⟨hp1, hp2⟩ := hp h0
    exact ⟨hp1, hi.1, hp2⟩

/-- C2 witness: on a session holding 32 bytes of which 4 were consumed, a
100-byte read returns 28 = min(32-4, 100) and advances `copied` to 32. -/
theorem c2_witness :
    Inv devData ∧
    usb_rt_read false devData 100 false [⟨WaitRes.interrupted, 0, false⟩] =
      some (28, { devData with bulk_in_copied := 32 }) ∧
    (0 : Int) ≤ 28 ∧
    ((28 : Int).toNat ≤ 100 ∧
      ({ devData with bulk_in_copied := 32 }).bulk_in_copied ≤
        ({ devData with bulk_in_copied := 32 }).bulk_in_filled ∧
      (0 < (28 : Int) → ∃ c0,
        c0 ≤ ({ devData with bulk_in_copied := 32 }).bulk_in_filled ∧
        ({ devData with bulk_in_copied := 32 }).bulk_in_copied =
          c0 + (28 : Int).toNat ∧
        (28 : Int).toNat =
          min (({ devData with bulk_in_copied := 32 }).bulk_in_filled - c0)
            100)) :=
  ⟨by decide, by decide, by decide,
   c2_buffer_invariant.2 false devData 100 false
     [⟨WaitRes.interrupted, 0, false⟩] 28
     { devData with bulk_in_copied := 32 } (by decide) (by decide)
     (by decide)⟩

/-- C3: a recorded transfer failure is surfaced to exactly the next read
or write that observes it — translated to -EPIPE for a stall and - EIO
otherwise — and cleared by that caller; a subsequent read or write with no
new error in between reports no error. -/
theorem c3_error_reported_once (bounded : Bool) (dev : UsbRtDev)
    (count count2 : Nat) (nonblock : Bool) (it it2 : ReadIter)
    (rest rest2 : List ReadIter) (writeMax : Nat) (o : WriteOracle)
    (hconn : dev.connected = true) (hcount : 0 < count)
    (hgo : dev.ongoing_read = false) (herr : dev.errors < 0) :
    (usb_rt_read bounded dev count nonblock (it :: rest) =
      some ((if dev.errors = -EPIPE then -EPIPE else - EIO),
            { dev with errors := 0 })) ∧
    (0 < dev.limit_sem → o.acq_interrupted = false →
      (usb_rt_write writeMax dev count nonblock o).retval =
        (if dev.errors = -EPIPE then -EPIPE else - EIO) ∧
      (usb_rt_write writeMax dev count nonblock o).dev.errors = 0 ∧
      (usb_rt_write writeMax dev count nonblock o).dev.limit_sem =
        dev.limit_sem ∧
      (usb_rt_write writeMax dev count nonblock o).urb_submitted = false) ∧
    (0 < count2 → dev.bulk_in_copied < dev.bulk_in_filled →
      it2.copy_fault = false →
      usb_rt_read bounded { dev with errors := 0 } count2 nonblock
        (it2 :: rest2) =
        some (((min (dev.bulk_in_filled - dev.bulk_in_copied) count2 :
            Nat) : Int),
          { dev with errors := 0, bulk_in_copied := (dev.bulk_in_copied +
              min (dev.bulk_in_filled - dev.bulk_in_copied) count2) })) ∧
    (0 < dev.limit_sem →
      (usb_rt_write writeMax { dev with errors := 0 } count nonblock
        ⟨false, false, false, false, 0⟩).retval =
        ((min count writeMax : Nat) : Int)) := by
  have hc' : count ≠ 0 := Nat.pos_iff_ne_zero.mp hcount
  refine ⟨?_, ?_, ?_, ?_⟩
  · simp [usb_rt_read, usb_rt_read_loop, read_wait_phase, usb_rt_read_step,
      hc', hconn, hgo, herr]
  · intro hs hi
    have heq : usb_rt_write writeMax dev count nonblock o =
        usb_rt_write_after_acq writeMax
          { dev with limit_sem := dev.limit_sem - 1 } count o := by
      cases nonblock with
      | false => exact write_blocking_eq _ _ _ _ hc' hi
      | true =>
        exact write_nonblocking_eq _ _ _ _ hc' (Nat.pos_iff_ne_zero.mp hs)
    rw [heq, after_acq_error writeMax
      { dev with limit_sem := dev.limit_sem - 1 } count o herr]
    refine ⟨rfl, rfl, ?_, rfl⟩
    show dev.limit_sem - 1 + 1 = dev.limit_sem
    omega
  · intro hc2 hav hf
    have hfne : dev.bulk_in_filled ≠ 0 := by omega
    have havne : dev.bulk_in_filled - dev.bulk_in_copied ≠ 0 :=
      Nat.sub_ne_zero_of_lt hav
    simp [usb_rt_read, usb_rt_read_loop, read_wait_phase, usb_rt_read_step,
      Nat.pos_iff_ne_zero.mp hc2, hconn, hgo, hfne, havne, hf]
  · intro hs
    have heq : usb_rt_write writeMax { dev with errors := 0 } count nonblock
        ⟨false, false, false, false, 0⟩ =
        usb_rt_write_after_acq writeMax
          { dev with errors := 0, limit_sem := dev.limit_sem - 1 } count
          ⟨false, false, false, false, 0⟩ := by
      cases nonblock with
      | false => exact write_blocking_eq _ _ _ _ hc' rfl
      | true =>
        exact write_nonblocking_eq _ _ _ _ hc' (Nat.pos_iff_ne_zero.mp hs)
    rw [heq, after_acq_ok writeMax
      { dev with errors := 0, limit_sem := dev.limit_sem - 1 } count
      (by simp) hconn]

/-- C3 witness: a stall recorded on `devData` is surfaced as -EPIPE by the
next read and cleared; the subsequent read delivers data with no error,
and the same holds on the write side. -/
theorem c3_witness :
    ({ devData with errors := -EPIPE } : UsbRtDev).connected = true ∧
    ({ devData with errors := -EPIPE } : UsbRtDev).errors < 0 ∧
    (usb_rt_read false { devData with errors := -EPIPE } 100 false
      [⟨WaitRes.interrupted, 0, false⟩] =
      some ((if ({ devData with errors := -EPIPE } :
          UsbRtDev).errors = -EPIPE then -EPIPE else - EIO),
        { { devData with errors := -EPIPE } with errors := 0 })) ∧
    (usb_rt_read false
      { { devData with errors := -EPIPE } with errors := 0 } 100 false
      [⟨WaitRes.interrupted, 0, false⟩] =
      some (28, { devData with bulk_in_copied := 32 })) :=
  ⟨by decide, by decide,
   (c3_error_reported_once false { devData with errors := -EPIPE } 100 100
      false ⟨WaitRes.interrupted, 0, false⟩ ⟨WaitRes.interrupted, 0, false⟩
      [] [] 64 okW (by decide) (by decide) (by decide) (by decide)).1,
   by decide⟩

/-- C5: with a receive outstanding at the time read checks, a nonblocking
read fails -EAGAIN at once; a blocking read suspends on the wait — an
interruption surfaces -ERESTARTSYS, completion lets it deliver the data —
and in the bounded-wait variant expiry of the 10 ms bound fails
-ETIMEDOUT. -/
theorem c5_read_pending (bounded : Bool) (dev : UsbRtDev) (count : Nat)
    (it : ReadIter) (rest : List ReadIter) (len : Nat)
    (hconn : dev.connected = true) (hcount : 0 < count)
    (hgo : dev.ongoing_read = true) :
    (usb_rt_read bounded dev count true (it :: rest) =
      some (-EAGAIN, dev)) ∧
    (it.wait = WaitRes.interrupted →
      usb_rt_read bounded dev count false (it :: rest) =
        some (-ERESTARTSYS, dev)) ∧
    (it.wait = WaitRes.timedout →
      usb_rt_read true dev count false (it :: rest) =
        some (-ETIMEDOUT, dev)) ∧
    (it.wait = WaitRes.completed 0 len → dev.errors = 0 →
      dev.bulk_in_copied = 0 → 0 < len → it.copy_fault = false →
      usb_rt_read bounded dev count false (it :: rest) =
        some (((min len count : Nat) : Int),
          { dev with bulk_in_filled := len, ongoing_read := false,
                     bulk_in_copied := min len count })) := by
  have hc' : count ≠ 0 := Nat.pos_iff_ne_zero.mp hcount
  refine ⟨?_, ?_, ?_, ?_⟩
  · simp [usb_rt_read, usb_rt_read_loop, read_wait_phase, hc', hconn, hgo]
  · intro hw
    simp [usb_rt_read, usb_rt_read_loop, read_wait_phase, hc', hconn, hgo,
      hw]
  · intro hw
    simp [usb_rt_read, usb_rt_read_loop, read_wait_phase, hc', hconn, hgo,
      hw]
  · intro hw herr hc0 hlen hf
    simp [usb_rt_read, usb_rt_read_loop, read_wait_phase,
      usb_rt_read_step, usb_rt_read_bulk_callback, hc', hconn, hgo, hw,
      herr, hc0, Nat.pos_iff_ne_zero.mp hlen, hf]

/-- C5 witness: on `devOngoing` a nonblocking read fails -EAGAIN; an
interrupted blocking read fails -ERESTARTSYS; a timed-out bounded read
fails -ETIMEDOUT; a completed 16-byte receive lets a blocking 10-byte
read return 10. -/
theorem c5_witness :
    devOngoing.connected = true ∧ (0 : Nat) < 10 ∧
    devOngoing.ongoing_read = true ∧
    (usb_rt_read true devOngoing 10 true
      [⟨WaitRes.interrupted, 0, false⟩] = some (-EAGAIN, devOngoing)) ∧
    (usb_rt_read true devOngoing 10 false [⟨WaitRes.timedout, 0, false⟩] =
      some (-ETIMEDOUT, devOngoing)) ∧
    (usb_rt_read true devOngoing 10 false
      [⟨WaitRes.completed 0 16, 0, false⟩] =
      some (((min 16 10 : Nat) : Int),
        { devOngoing with bulk_in_filled := 16, ongoing_read := false,
                          bulk_in_copied := min 16 10 })) :=
  ⟨by decide, by decide, by decide,
   (c5_read_pending true devOngoing 10 ⟨WaitRes.interrupted, 0, false⟩ []
      16 (by decide) (by decide) (by decide)).1,
   (c5_read_pending true devOngoing 10 ⟨WaitRes.timedout, 0, false⟩ []
      16 (by decide) (by decide) (by decide)).2.2.1 (by decide),
   (c5_read_pending true devOngoing 10 ⟨WaitRes.completed 0 16, 0, false⟩
      [] 16 (by decide) (by decide) (by decide)).2.2.2 (by decide)
      (by decide) (by decide) (by decide) (by decide)⟩

/-- C9: when unread bytes are available and the copy to the caller's
buffer faults, read returns -EFAULT but still advances `copied` by the
full chunk `min (filled - copied) count`: the bytes are consumed and a
retry delivers only the bytes after them. -/
theorem c9_read_fault_consumes (bounded : Bool) (dev : UsbRtDev)
    (count : Nat) (nonblock : Bool) (it : ReadIter) (rest : List ReadIter)
    (hconn : dev.connected = true) (hcount : 0 < count)
    (hgo : dev.ongoing_read = false) (herr : ¬ dev.errors < 0)
    (hav : dev.bulk_in_copied < dev.bulk_in_filled)
    (hf : it.copy_fault = true) :
    usb_rt_read bounded dev count nonblock (it :: rest) =
      some (-EFAULT,
        { dev with bulk_in_copied := (dev.bulk_in_copied +
            min (dev.bulk_in_filled - dev.bulk_in_copied) count) }) := by
  have hfne : dev.bulk_in_filled ≠ 0 := by omega
  have havne : dev.bulk_in_filled - dev.bulk_in_copied ≠ 0 :=
    Nat.sub_ne_zero_of_lt hav
  simp [usb_rt_read, usb_rt_read_loop, read_wait_phase, usb_rt_read_step,
    Nat.pos_iff_ne_zero.mp hcount, hconn, hgo, herr, hfne, havne, hf]

/-- C9 witness: a faulting 100-byte read on `devData` (32 filled, 4
consumed) returns -EFAULT and still consumes the 28-byte chunk. -/
theorem c9_witness :
    devData.connected = true ∧ devData.ongoing_read = false ∧
    ¬ devData.errors < 0 ∧ devData.bulk_in_copied < devData.bulk_in_filled ∧
    usb_rt_read false devData 100 false [⟨WaitRes.interrupted, 0, true⟩] =
      some (-EFAULT,
        { devData with bulk_in_copied := (devData.bulk_in_copied +
            min (devData.bulk_in_filled - devData.bulk_in_copied) 100) }) :=
  ⟨by decide, by decide, by decide, by decide,
   c9_read_fault_consumes false devData 100 false
     ⟨WaitRes.interrupted, 0, true⟩ [] (by decide) (by decide) (by decide)
     (by decide) (by decide) (by decide)⟩

/-- C1 witness: a successful blocking write on `dev0` takes the slot, and
each possible completion restores the counter to 8. -/
theorem c1_witness :
    0 < 100 ∧ 0 < dev0.limit_sem ∧ okW.acq_interrupted = false ∧
    ((usb_rt_write 64 dev0 100 false okW).urb_submitted = true →
      (usb_rt_write 64 dev0 100 false okW).dev.limit_sem + 1 =
        dev0.limit_sem ∧
      ∀ s2, (usb_rt_write_bulk_callback
          (usb_rt_write 64 dev0 100 false okW).dev s2).limit_sem =
        dev0.limit_sem) :=
  ⟨by decide, by decide, by decide,
   (c1_admission_slot_released_once 64 dev0 100 false okW dev0 (-EPIPE)
      (by decide) (by decide) (by decide)).2.1⟩

end UsbRt
